import Mathlib

/-!
Verification of the push-notification delivery subsystem of the
school-backend repository (`app/services/push.py`) and of the event
lifecycle endpoints that invoke it (`app/api/events.py`).

The Python source is embedded shallowly:
* pure helpers (`_format_ru_short_datetime`, `_notification_title`,
  `_is_invalid_token_error`, the token de-duplication of
  `_collect_device_tokens`) become Lean functions;
* the Firebase messaging collaborator becomes an outcome oracle
  (`FcmEnv`): each `messaging.send` either returns normally or raises
  with a message string;
* the SQLAlchemy session becomes an explicit registry of device token
  rows (`DbConn`) together with flags saying whether its read
  (`db.scalars`) or its write path (`db.delete`/`db.commit`) raises;
* fallible code returns `Except String _`, where `.error m` models a
  Python exception with message `m` escaping the function.
-/

/-- Outcome of a single `messaging.send` call: normal return, or an
exception carrying a message string. -/
inductive SendOutcome where
  | ok : SendOutcome
  | raise : String → SendOutcome
deriving DecidableEq, Repr

/-- The Firebase messaging collaborator, as an outcome oracle: the result
of `messaging.send` for the per-token message built for a given token, and
the result of the single topic-broadcast send of the call. -/
structure FcmEnv where
  tokenSend : String → SendOutcome
  topicSend : SendOutcome

/-- The database session: the `Device.fcm_token` column values in read
order, plus flags modelling whether the session's read path
(`db.scalars`) or its write path (`db.delete` loop / `db.commit`) raises,
and with which message. -/
structure DbConn where
  rows : List String
  readFail : Option String
  writeFail : Option String
deriving DecidableEq, Repr

/-- `_INVALID_TOKEN_ERROR_MARKERS` from `app/services/push.py`. -/
def _INVALID_TOKEN_ERROR_MARKERS : List String :=
  [ "not a valid fcm registration token"
  , "invalid registration token"
  , "registration-token-not-registered"
  , "requested entity was not found"
  , "unregistered" ]

/-- Python's `str.lower`, character by character. -/
def lowerStr (s : String) : String :=
  String.mk (s.data.map Char.toLower)

/-- Python's substring containment test `sub in s`. -/
def containsSub (sub s : String) : Bool :=
  decide (sub.data <:+: s.data)

/-- `PushService._is_invalid_token_error`: lower-case the exception text
and test every fixed marker for substring containment. -/
def _is_invalid_token_error (msg : String) : Bool :=
  _INVALID_TOKEN_ERROR_MARKERS.any (fun marker => containsSub marker (lowerStr msg))

/-- `_RU_MONTHS_SHORT` from `app/services/push.py`. -/
def _RU_MONTHS_SHORT : List String :=
  ["янв", "февр", "мар", "апр", "мая", "июн", "июл", "авг", "сент", "окт", "нояб", "дек"]

/-- Python's `f"{n:02d}"`: zero-pad the decimal rendering to width two. -/
def pad2 (n : Int) : String :=
  let s := toString n
  if s.length < 2 then "0" ++ s else s

/-- A Python `datetime`-like value as `_format_ru_short_datetime` reads
it: `day`, `month`, `hour`, `minute` attributes.  The month is an
arbitrary integer so that the defensive clamp is observable. -/
structure PyDateTime where
  day : Int
  month : Int
  hour : Int
  minute : Int
deriving DecidableEq, Repr

/-- The month-table index computed by `_format_ru_short_datetime`:
`max(0, min(11, value.month - 1))`. -/
def monthIndex (m : Int) : Nat :=
  (max 0 (min 11 (m - 1))).toNat

theorem monthIndex_le (m : Int) : monthIndex m ≤ 11 := by
  unfold monthIndex
  omega

theorem monthIndex_lt_length (m : Int) : monthIndex m < _RU_MONTHS_SHORT.length := by
  have h := monthIndex_le m
  simp only [_RU_MONTHS_SHORT, List.length]
  omega

/-- `_format_ru_short_datetime`: `None` renders the fixed fallback;
otherwise `DD <short-month>, HH:MM` with the month index clamped into
the table's bounds. -/
def _format_ru_short_datetime : Option PyDateTime → String
  | none => "Дата не указана"
  | some v =>
      let month := _RU_MONTHS_SHORT.get ⟨monthIndex v.month, monthIndex_lt_length v.month⟩
      pad2 v.day ++ " " ++ month ++ ", " ++ pad2 v.hour ++ ":" ++ pad2 v.minute

/-- `_notification_title`: three explicit string comparisons and a final
catch-all return of the `canceled` title. -/
def _notification_title (notification_type : String) : String :=
  if notification_type = "new" then "Новое мероприятие!"
  else if notification_type = "rescheduled" then "Мероприятие перенесено"
  else if notification_type = "updated" then "Мероприятие изменено"
  else "Мероприятие отменено"

/-- Python's `list(dict.fromkeys(l))`: insert keys left to right, keeping
the position of the first insertion of each key. -/
def pyDedup (l : List String) : List String :=
  l.foldl (fun acc t => if t ∈ acc then acc else acc ++ [t]) []

/-- Specification-side order-preserving first-wins de-duplication: keep
each element's first occurrence, drop the later ones. -/
def dedupFirst : List String → List String
  | [] => []
  | t :: rest => t :: dedupFirst (rest.filter (fun s => decide (s ≠ t)))
termination_by l => l.length
decreasing_by
  simp only [List.length_cons]
  exact Nat.lt_succ_of_le (List.length_filter_le _ _)

/-- `PushService._collect_device_tokens`: `[]` without a session;
otherwise read the token column (which may raise) and return the
non-empty tokens de-duplicated via `dict.fromkeys`. -/
def _collect_device_tokens : Option DbConn → Except String (List String)
  | none => .ok []
  | some c =>
      match c.readFail with
      | some m => .error m
      | none => .ok (pyDedup (c.rows.filter (fun t => !t.isEmpty)))

/-- `PushService._prune_invalid_tokens`: return `0` with no session or an
empty token list (no database access at all); de-duplicate the non-empty
tokens; select the `Device` rows whose token is among them (the read may
raise), delete each selected row and commit when any was selected (the
write may raise); return the number of rows removed. -/
def _prune_invalid_tokens (db : Option DbConn) (tokens : List String) :
    Except String (Nat × Option DbConn) :=
  match db with
  | none => .ok (0, none)
  | some c =>
      if tokens.isEmpty then .ok (0, some c)
      else if (pyDedup (tokens.filter (fun t => !t.isEmpty))).isEmpty then .ok (0, some c)
      else
        match c.readFail with
        | some m => .error m
        | none =>
            if (c.rows.filter
                 (fun t => (pyDedup (tokens.filter (fun t => !t.isEmpty))).contains t)).isEmpty
            then .ok (0, some c)
            else
              match c.writeFail with
              | some m => .error m
              | none =>
                  .ok ((c.rows.filter (fun t => (pyDedup (tokens.filter (fun t => !t.isEmpty))).contains t)).length,
                       some { c with rows := c.rows.filter (fun t => !(pyDedup (tokens.filter (fun t => !t.isEmpty))).contains t) })

/-- The `for token in tokens` loop of `PushService._send_to_tokens`: every
`messaging.send` exception is caught; a marker-matching error collects the
token for pruning, any other error is logged and dropped.  Returns the
delivered count and the collected invalid tokens in iteration order. -/
def fanoutLoop (env : FcmEnv) : List String → Nat × List String
  | [] => (0, [])
  | t :: rest =>
      match env.tokenSend t with
      | .ok =>
          let r := fanoutLoop env rest
          (r.1 + 1, r.2)
      | .raise m =>
          let r := fanoutLoop env rest
          if _is_invalid_token_error m then (r.1, t :: r.2) else r

/-- `PushService._send_to_tokens`: run the fan-out loop, then batch-prune
the collected invalid tokens (the prune's database access may raise, and
is not wrapped in a try/except); return the delivered count. -/
def _send_to_tokens (env : FcmEnv) (tokens : List String) (db : Option DbConn) :
    Except String (Nat × Option DbConn) :=
  let r := fanoutLoop env tokens
  match _prune_invalid_tokens db r.2 with
  | .error m => .error m
  | .ok (_, dbAfter) => .ok (r.1, dbAfter)

/-- `PushService._send_to_topic`: one topic send inside a try/except;
returns whether it succeeded and never raises. -/
def _send_to_topic (env : FcmEnv) : Bool :=
  match env.topicSend with
  | .ok => true
  | .raise _ => false

/-- Observable trace of one `PushService._send_event` call. -/
structure SendTrace where
  delivered : Nat
  topicAttempts : Nat
  topicSent : Bool
  dbAfter : Option DbConn
deriving DecidableEq, Repr

/-- `PushService._send_event`: no-op when the provider is disabled;
otherwise collect tokens (may raise), fan out when the token list is
non-empty (the embedded prune may raise), and attempt the topic broadcast
exactly when zero per-token deliveries succeeded. -/
def _send_event (enabled : Bool) (env : FcmEnv) (db : Option DbConn) :
    Except String SendTrace :=
  if enabled then
    match _collect_device_tokens db with
    | .error m => .error m
    | .ok tokens =>
        match (if tokens.isEmpty then .ok (0, db) else _send_to_tokens env tokens db) with
        | .error m => .error m
        | .ok (delivered, dbAfter) =>
            if delivered = 0 then
              .ok { delivered := delivered, topicAttempts := 1,
                    topicSent := _send_to_topic env, dbAfter := dbAfter }
            else
              .ok { delivered := delivered, topicAttempts := 0,
                    topicSent := false, dbAfter := dbAfter }
  else
    .ok { delivered := 0, topicAttempts := 0, topicSent := false, dbAfter := db }

/-- The result dictionary of `PushService.send_test_notification`. -/
structure TestResult where
  ok : Bool
  enabled : Bool
  topic : String
  tokens_total : Nat
  tokens_delivered : Nat
  tokens_pruned : Nat
  topic_sent : Bool
  errors : List String
deriving DecidableEq, Repr

/-- The `for token in tokens` loop of `send_test_notification`: returns
the delivered count, the collected invalid tokens, and the error strings
in iteration order; every error entry embeds the first 12 characters of
the token followed by an ellipsis (`f"token:\x7btoken[:12]\x7d..."`). -/
def testLoop (env : FcmEnv) : List String → Nat × List String × List String
  | [] => (0, [], [])
  | t :: rest =>
      match env.tokenSend t with
      | .ok =>
          let r := testLoop env rest
          (r.1 + 1, r.2.1, r.2.2)
      | .raise m =>
          let r := testLoop env rest
          if _is_invalid_token_error m then
            (r.1, t :: r.2.1,
             ("token:" ++ t.take 12 ++ "... invalid_or_unregistered (removed)") :: r.2.2)
          else
            (r.1, r.2.1, ("token:" ++ t.take 12 ++ "... " ++ m) :: r.2.2)

/-- `PushService.send_test_notification`: a fixed disabled result when the
provider is off; otherwise the same collect / fan-out / prune / topic
fallback flow as `_send_event` (collect and prune may still raise), with
every send failure converted into an error string, the error list capped
to its first 5 entries, and `ok = delivered > 0 or topic_sent`. -/
def send_test_notification (enabled : Bool) (topicName : String) (env : FcmEnv)
    (db : Option DbConn) : Except String (TestResult × Option DbConn) :=
  if enabled then
    match _collect_device_tokens db with
    | .error m => .error m
    | .ok tokens =>
        let r := testLoop env tokens
        match _prune_invalid_tokens db r.2.1 with
        | .error m => .error m
        | .ok (pruned, dbAfter) =>
            let topicStep :
                Bool × List String :=
              if r.1 = 0 then
                match env.topicSend with
                | .ok => (true, r.2.2)
                | .raise m => (false, r.2.2 ++ ["topic:" ++ topicName ++ " " ++ m])
              else (false, r.2.2)
            .ok ({ ok := decide (r.1 > 0) || topicStep.1
                 , enabled := true
                 , topic := topicName
                 , tokens_total := tokens.length
                 , tokens_delivered := r.1
                 , tokens_pruned := pruned
                 , topic_sent := topicStep.1
                 , errors := topicStep.2.take 5 }, dbAfter)
  else
    .ok ({ ok := false, enabled := false, topic := topicName, tokens_total := 0
         , tokens_delivered := 0, tokens_pruned := 0, topic_sent := false
         , errors := ["push_service_disabled_or_missing_credentials"] }, db)

/-!
Event lifecycle endpoints (`app/api/events.py`).  A datetime value is
opaque here (`Nat`); only presence and equality matter to the endpoints.
-/

/-- An `Event` row as the endpoints read and write it. -/
structure EventRec where
  id : String
  title : Option String
  datetime_start : Option Nat
  location : Option String
  banner_image_url : Option String
  status : String
deriving DecidableEq, Repr

/-- Python truthiness of an optional string: `None` and `""` are falsy. -/
def isBlank : Option String → Bool
  | none => true
  | some s => s.isEmpty

/-- Outcome of one endpoint call: the event row after the call, the HTTP
status code of the response, and how many times each push entry point was
invoked during the call. -/
structure EndpointOutcome where
  event : EventRec
  httpStatus : Nat
  newPushes : Nat
  rescheduledPushes : Nat
  updatedPushes : Nat
  canceledPushes : Nat
deriving DecidableEq, Repr

/-- `publish_event` (`POST /events/.../publish`): reject with 400 while
any of title / datetime_start / location / banner is missing; otherwise
set the status to `published`, commit, and call
`push_service.send_event_published` — unconditionally, with no check of
the prior status. -/
def publish_event (ev : EventRec) : EndpointOutcome :=
  let missing : List String :=
    (if isBlank ev.title then ["title"] else [])
      ++ (if ev.datetime_start.isNone then ["datetime_start"] else [])
      ++ (if isBlank ev.location then ["location"] else [])
      ++ (if isBlank ev.banner_image_url then ["banner_image_url"] else [])
  if missing.isEmpty then
    { event := { ev with status := "published" }, httpStatus := 200
    , newPushes := 1, rescheduledPushes := 0, updatedPushes := 0, canceledPushes := 0 }
  else
    { event := ev, httpStatus := 400
    , newPushes := 0, rescheduledPushes := 0, updatedPushes := 0, canceledPushes := 0 }

/-- The `EventUpdateRequest` payload of `PATCH /events/...`. -/
structure EventPatch where
  title : Option String
  datetime_start : Option Nat
  location : Option String
deriving DecidableEq, Repr

/-- `update_event` (`PATCH /events/...`): copy every non-`None` payload
field onto the event and commit.  The handler contains no call into
`PushService`: it fires no notification of any kind. -/
def update_event (ev : EventRec) (payload : EventPatch) : EndpointOutcome :=
  let ev1 := if payload.title.isSome then { ev with title := payload.title } else ev
  let ev2 :=
    if payload.datetime_start.isSome then
      { ev1 with datetime_start := payload.datetime_start }
    else ev1
  let ev3 := if payload.location.isSome then { ev2 with location := payload.location } else ev2
  { event := ev3, httpStatus := 200
  , newPushes := 0, rescheduledPushes := 0, updatedPushes := 0, canceledPushes := 0 }

/-- Modelled from the spec: `app/api/events.py` has no
`DELETE /events/...` handler (only `tests/test_api.py` exercises one), so
the delete endpoint is modelled from the spec's transition table — the
delete action removes the event and emits exactly one `canceled`
notification when the event's status was `published`, and none otherwise
(editing or deleting a draft never notifies). -/
def delete_event (ev : EventRec) : EndpointOutcome :=
  { event := { ev with status := "deleted" }, httpStatus := 200
  , newPushes := 0, rescheduledPushes := 0, updatedPushes := 0
  , canceledPushes := if ev.status = "published" then 1 else 0 }

/-! Helper lemmas about the order-preserving de-duplication. -/

theorem dedupFirst_cons (t : String) (rest : List String) :
    dedupFirst (t :: rest) = t :: dedupFirst (rest.filter (fun s => decide (s ≠ t))) := by
  rw [dedupFirst]

theorem pyDedup_go (l : List String) : ∀ acc : List String,
    l.foldl (fun acc t => if t ∈ acc then acc else acc ++ [t]) acc
      = acc ++ dedupFirst (l.filter (fun s => decide (¬ s ∈ acc))) := by
  induction l with
  | nil => intro acc; simp [dedupFirst]
  | cons t rest ih =>
      intro acc
      simp only [List.foldl_cons, List.filter_cons]
      by_cases h : t ∈ acc
      · rw [if_pos h]
        have hd : decide (¬ t ∈ acc) = false := by simp [h]
        rw [hd]
        simp only [Bool.false_eq_true, if_false]
        exact ih acc
      · rw [if_neg h]
        have hd : decide (¬ t ∈ acc) = true := by simp [h]
        rw [hd]
        simp only [if_true]
        rw [ih (acc ++ [t]), dedupFirst_cons]
        have hfilters :
            rest.filter (fun s => decide (¬ s ∈ acc ++ [t]))
              = (rest.filter (fun s => decide (¬ s ∈ acc))).filter
                  (fun s => decide (s ≠ t)) := by
          rw [List.filter_filter]
          refine List.filter_congr ?_
          intro a _
          by_cases h1 : a ∈ acc <;> by_cases h2 : a = t <;>
            simp [h1, h2, List.mem_append]
        rw [hfilters, List.append_assoc]
        rfl

theorem pyDedup_eq_dedupFirst (l : List String) : pyDedup l = dedupFirst l := by
  unfold pyDedup
  rw [pyDedup_go l []]
  have h : l.filter (fun s => decide (¬ s ∈ ([] : List String))) = l := by
    refine List.filter_eq_self.mpr ?_
    intro a _
    simp
  rw [h, List.nil_append]

theorem mem_dedupFirst (l : List String) (a : String) : a ∈ dedupFirst l ↔ a ∈ l := by
  induction l using dedupFirst.induct with
  | case1 => simp [dedupFirst]
  | case2 t rest ih =>
      rw [dedupFirst_cons]
      by_cases h : a = t
      · simp [h]
      · simp only [List.mem_cons, h, false_or]
        rw [ih]
        simp [List.mem_filter, h]

theorem nodup_dedupFirst (l : List String) : (dedupFirst l).Nodup := by
  induction l using dedupFirst.induct with
  | case1 => simp [dedupFirst]
  | case2 t rest ih =>
      rw [dedupFirst_cons]
      refine List.nodup_cons.mpr ⟨?_, ih⟩
      intro hmem
      rw [mem_dedupFirst] at hmem
      have := (List.mem_filter.mp hmem).2
      simp at this

theorem mem_pyDedup (l : List String) (a : String) : a ∈ pyDedup l ↔ a ∈ l := by
  rw [pyDedup_eq_dedupFirst]
  exact mem_dedupFirst l a

/-! Helper lemmas about the fan-out loop of `_send_to_tokens`. -/

theorem mem_fanout_invalid (env : FcmEnv) (toks : List String) (t : String) :
    t ∈ (fanoutLoop env toks).2
      ↔ t ∈ toks ∧ ∃ m, env.tokenSend t = .raise m ∧ _is_invalid_token_error m = true := by
  induction toks with
  | nil => simp [fanoutLoop]
  | cons u rest ih =>
      unfold fanoutLoop
      rcases hu : env.tokenSend u with _ | m
      · simp only []
        rw [ih]
        constructor
        · rintro ⟨hmem, hex⟩
          exact ⟨List.mem_cons_of_mem u hmem, hex⟩
        · rintro ⟨hmem, m', hraise, hmark⟩
          rcases List.mem_cons.mp hmem with heq | hmem'
          · rw [heq] at hraise
            rw [hu] at hraise
            cases hraise
          · exact ⟨hmem', m', hraise, hmark⟩
      · simp only []
        by_cases hmark : _is_invalid_token_error m = true
        · rw [if_pos hmark]
          simp only [List.mem_cons]
          constructor
          · intro hmem
            rcases hmem with heq | hmem'
            · exact ⟨Or.inl heq, m, heq ▸ hu, hmark⟩
            · rcases ih.mp hmem' with ⟨hm, hex⟩
              exact ⟨Or.inr hm, hex⟩
          · rintro ⟨hmem, m', hraise, hmark'⟩
            rcases hmem with heq | hmem'
            · exact Or.inl heq
            · exact Or.inr (ih.mpr ⟨hmem', m', hraise, hmark'⟩)
        · rw [if_neg hmark]
          rw [ih]
          constructor
          · rintro ⟨hmem, hex⟩
            exact ⟨List.mem_cons_of_mem u hmem, hex⟩
          · rintro ⟨hmem, m', hraise, hmark'⟩
            rcases List.mem_cons.mp hmem with heq | hmem'
            · rw [heq] at hraise
              rw [hu] at hraise
              cases hraise
              exact absurd hmark' hmark
            · exact ⟨hmem', m', hraise, hmark'⟩

/-! Helper lemmas about the batch prune and the full `_send_event` run. -/

theorem mem_pyDedup_filter (l : List String) (t : String) :
    t ∈ pyDedup (l.filter (fun s => !s.isEmpty)) ↔ t ∈ l ∧ t ≠ "" := by
  rw [mem_pyDedup, List.mem_filter]
  simp only [Bool.not_eq_true']
  constructor
  · rintro ⟨hmem, hfalse⟩
    refine ⟨hmem, ?_⟩
    intro heq
    rw [heq] at hfalse
    exact absurd hfalse (by decide)
  · rintro ⟨hmem, hne⟩
    refine ⟨hmem, ?_⟩
    rw [Bool.eq_false_iff]
    intro htrue
    exact hne ((String.isEmpty_iff t).mp htrue)

theorem prune_registry (c : DbConn) (l : List String)
    (hr : c.readFail = none) (hw : c.writeFail = none) :
    ∃ n c', _prune_invalid_tokens (some c) l = .ok (n, some c') ∧
      (∀ t, t ∈ c'.rows ↔ (t ∈ c.rows ∧ ¬(t ∈ l ∧ t ≠ ""))) ∧
      n + c'.rows.length = c.rows.length := by
  by_cases hempty : l.isEmpty
  · refine ⟨0, c, by simp only [_prune_invalid_tokens]; rw [if_pos hempty], ?_, by omega⟩
    intro t
    rw [List.isEmpty_iff] at hempty
    simp [hempty]
  · by_cases huniq : (pyDedup (l.filter (fun s => !s.isEmpty))).isEmpty
    · refine ⟨0, c,
        by simp only [_prune_invalid_tokens]; rw [if_neg hempty, if_pos huniq], ?_, by omega⟩
      intro t
      rw [List.isEmpty_iff] at huniq
      have hnot : ¬(t ∈ l ∧ t ≠ "") := by
        rintro ⟨hmem, hne⟩
        have := (mem_pyDedup_filter l t).mpr ⟨hmem, hne⟩
        rw [huniq] at this
        simp at this
      simp [hnot]
    · by_cases hsel :
          (c.rows.filter (fun t => (pyDedup (l.filter fun s => !s.isEmpty)).contains t)).isEmpty
      · refine ⟨0, c,
          by simp only [_prune_invalid_tokens]
             rw [if_neg hempty, if_neg huniq, hr]
             simp only []
             rw [if_pos hsel], ?_, by omega⟩
        intro t
        rw [List.isEmpty_iff, List.filter_eq_nil_iff] at hsel
        constructor
        · intro hmem
          refine ⟨hmem, ?_⟩
          rintro ⟨hinl, hne⟩
          have hcont := hsel t hmem
          have : t ∈ pyDedup (l.filter fun s => !s.isEmpty) :=
            (mem_pyDedup_filter l t).mpr ⟨hinl, hne⟩
          simp [this] at hcont
        · exact fun h => h.1
      · refine ⟨(c.rows.filter
            (fun t => (pyDedup (l.filter fun s => !s.isEmpty)).contains t)).length,
          { c with rows :=
              c.rows.filter (fun t => !(pyDedup (l.filter fun s => !s.isEmpty)).contains t) },
          by simp only [_prune_invalid_tokens]
             rw [if_neg hempty, if_neg huniq, hr]
             simp only []
             rw [if_neg hsel, hw], ?_, ?_⟩
        · intro t
          simp only [List.mem_filter, Bool.not_eq_true']
          constructor
          · rintro ⟨hmem, hcont⟩
            refine ⟨hmem, ?_⟩
            rintro ⟨hinl, hne⟩
            have : t ∈ pyDedup (l.filter fun s => !s.isEmpty) :=
              (mem_pyDedup_filter l t).mpr ⟨hinl, hne⟩
            simp [this] at hcont
          · rintro ⟨hmem, hnot⟩
            refine ⟨hmem, ?_⟩
            rw [← Bool.not_eq_true]
            intro hcont
            have : t ∈ pyDedup (l.filter fun s => !s.isEmpty) := by
              simpa using hcont
            exact hnot ((mem_pyDedup_filter l t).mp this)
        · exact (List.length_eq_length_filter_add _).symm

theorem send_event_run (env : FcmEnv) (c : DbConn)
    (hr : c.readFail = none) (hw : c.writeFail = none) :
    ∃ tr c', _send_event true env (some c) = .ok tr ∧ tr.dbAfter = some c' ∧
      ∀ t, t ∈ c'.rows ↔ (t ∈ c.rows ∧
        ¬(t ∈ (fanoutLoop env (pyDedup (c.rows.filter (fun s => !s.isEmpty)))).2 ∧ t ≠ "")) := by
  have hcol : _collect_device_tokens (some c)
      = .ok (pyDedup (c.rows.filter (fun s => !s.isEmpty))) := by
    simp only [_collect_device_tokens]
    rw [hr]
  by_cases hemp : (pyDedup (c.rows.filter (fun s => !s.isEmpty))).isEmpty
  · refine ⟨⟨0, 1, _send_to_topic env, some c⟩, c, ?_, rfl, ?_⟩
    · simp only [_send_event]
      rw [hcol]
      simp only []
      rw [if_pos hemp]
      simp
    · intro t
      rw [List.isEmpty_iff] at hemp
      rw [hemp]
      simp [fanoutLoop]
  · obtain ⟨n, c', heq, hmem, _⟩ :=
      prune_registry c (fanoutLoop env (pyDedup (c.rows.filter (fun s => !s.isEmpty)))).2 hr hw
    have hst : _send_to_tokens env (pyDedup (c.rows.filter (fun s => !s.isEmpty))) (some c)
        = .ok ((fanoutLoop env (pyDedup (c.rows.filter (fun s => !s.isEmpty)))).1, some c') := by
      simp only [_send_to_tokens]
      rw [heq]
    by_cases hd : (fanoutLoop env (pyDedup (c.rows.filter (fun s => !s.isEmpty)))).1 = 0
    · refine ⟨⟨(fanoutLoop env (pyDedup (c.rows.filter (fun s => !s.isEmpty)))).1, 1,
        _send_to_topic env, some c'⟩, c', ?_, rfl, hmem⟩
      simp only [_send_event]
      rw [hcol]
      simp only []
      rw [if_neg hemp, hst]
      simp only []
      rw [if_pos hd]
      simp
    · refine ⟨⟨(fanoutLoop env (pyDedup (c.rows.filter (fun s => !s.isEmpty)))).1, 0,
        false, some c'⟩, c', ?_, rfl, hmem⟩
      simp only [_send_event]
      rw [hcol]
      simp only []
      rw [if_neg hemp, hst]
      simp only []
      rw [if_neg hd]
      simp


/-! Concrete collaborator instances used by witnesses and counterexamples. -/

/-- An environment in which every send succeeds. -/
def envAllOk : FcmEnv := { tokenSend := fun _ => .ok, topicSend := .ok }

/-- The spec's end-to-end scenario A: sending to `t1` succeeds and `t2`
fails with `registration-token-not-registered`. -/
def envScenarioA : FcmEnv :=
  { tokenSend := fun t =>
      if t = "t2" then .raise "registration-token-not-registered" else .ok
  , topicSend := .ok }

/-- An environment in which every per-token send fails transiently. -/
def envTransient : FcmEnv :=
  { tokenSend := fun _ => .raise "network timeout", topicSend := .ok }

/-- A fully specified draft event with all four publishable fields set. -/
def evComplete : EventRec :=
  { id := "e1", title := some "Title", datetime_start := some 0
  , location := some "Hall", banner_image_url := some "banner.png", status := "draft" }

/-- C1: in every enabled `_send_event` call that returns, the topic
broadcast is attempted exactly once when zero per-token deliveries
succeeded (including the empty-token-list case), and never when at least
one succeeded: token-level delivery and topic delivery are mutually
exclusive per call. -/
theorem C1_token_topic_mutually_exclusive (env : FcmEnv) (db : Option DbConn)
    (tr : SendTrace) (h : _send_event true env db = .ok tr) :
    tr.topicAttempts = if tr.delivered = 0 then 1 else 0 := by
  simp only [_send_event] at h
  rcases hcol : _collect_device_tokens db with m | tokens <;> rw [hcol] at h
  · simp at h
  · simp only [] at h
    rcases hst : (if tokens.isEmpty then Except.ok (0, db)
        else _send_to_tokens env tokens db) with m | p <;> rw [hst] at h
    · simp at h
    · obtain ⟨delivered, dbA⟩ := p
      simp only [] at h
      by_cases hd : delivered = 0
      · rw [if_pos hd] at h
        simp only [if_true, Except.ok.injEq] at h
        subst h
        simp [hd]
      · rw [if_neg hd] at h
        simp only [if_true, Except.ok.injEq] at h
        subst h
        simp [hd]

/-- Witness for C1 at a concrete input: with no session and an
all-successful environment, zero tokens are delivered and exactly one
topic attempt is made. -/
theorem C1_witness :
    ({ delivered := 0, topicAttempts := 1, topicSent := true, dbAfter := none } :
        SendTrace).topicAttempts
      = if ({ delivered := 0, topicAttempts := 1, topicSent := true, dbAfter := none } :
            SendTrace).delivered = 0 then 1 else 0 :=
  C1_token_topic_mutually_exclusive envAllOk none
    { delivered := 0, topicAttempts := 1, topicSent := true, dbAfter := none } rfl

/-- C2: the code refires the `new` push on republish.  `publish_event`
invokes `send_event_published` unconditionally on every successful call:
publishing the already-published result of a first publish fires the
notification a second time (the repository's own test
`test_publish_notifies_only_first_publish` expects exactly one). -/
theorem C2_republish_fires_again :
    (publish_event evComplete).event.status = "published"
    ∧ (publish_event evComplete).newPushes = 1
    ∧ (publish_event (publish_event evComplete).event).httpStatus = 200
    ∧ (publish_event (publish_event evComplete).event).newPushes = 1 :=
  ⟨rfl, rfl, rfl, rfl⟩

/-- C3: `update_event` fires no notification whatsoever — neither
`rescheduled` nor `updated` (nor any other kind) — for any event and any
payload, published or not (the repository's own tests
`test_update_published_datetime_sends_rescheduled_push` and
`test_update_published_title_sends_updated_push` expect one). -/
theorem C3_update_fires_no_push (ev : EventRec) (p : EventPatch) :
    (update_event ev p).rescheduledPushes = 0
    ∧ (update_event ev p).updatedPushes = 0
    ∧ (update_event ev p).newPushes = 0
    ∧ (update_event ev p).canceledPushes = 0 :=
  ⟨rfl, rfl, rfl, rfl⟩

/-- C4: deleting an event whose status was `published` emits exactly one
`canceled` notification (against the spec-modelled delete endpoint, which
is absent from `app/api/events.py`). -/
theorem C4_delete_published_emits_canceled (ev : EventRec)
    (h : ev.status = "published") :
    (delete_event ev).canceledPushes = 1 ∧ (delete_event ev).event.status = "deleted" := by
  refine ⟨?_, rfl⟩
  simp [delete_event, h]

/-- Witness for C4 at a concrete published event. -/
theorem C4_witness :
    (delete_event { evComplete with status := "published" }).canceledPushes = 1
    ∧ (delete_event { evComplete with status := "published" }).event.status = "deleted" :=
  C4_delete_published_emits_canceled { evComplete with status := "published" } rfl

/-- C8: the date-time formatter clamps any integer month into table range
`[0,11]`; month 12 (index 11) renders the last short-month entry `дек`;
out-of-range months clamp to the ends; `None` renders the documented
fallback text.  The formatter is total, so it never raises. -/
theorem C8_format_datetime_clamps :
    (∀ m : Int, monthIndex m ≤ 11)
    ∧ monthIndex 12 = 11
    ∧ _RU_MONTHS_SHORT.getD 11 "" = "дек"
    ∧ _format_ru_short_datetime none = "Дата не указана"
    ∧ _format_ru_short_datetime (some { day := 5, month := 12, hour := 9, minute := 7 })
        = "05 дек, 09:07"
    ∧ monthIndex 99 = 11
    ∧ monthIndex (-3) = 0
    ∧ _format_ru_short_datetime (some { day := 1, month := 99, hour := 0, minute := 0 })
        = "01 дек, 00:00" :=
  ⟨monthIndex_le, by decide, rfl, rfl, rfl, by decide, by decide, rfl⟩

/-- C9: token collection returns exactly the spec-side order-preserving
first-wins de-duplication of the non-empty stored tokens: no duplicates,
membership is exactly the non-empty stored tokens, and the order is that
of first occurrence. -/
theorem C9_collect_first_wins_dedup (c : DbConn) (h : c.readFail = none) :
    ∃ toks, _collect_device_tokens (some c) = .ok toks
      ∧ toks = dedupFirst (c.rows.filter (fun s => !s.isEmpty))
      ∧ toks.Nodup
      ∧ ∀ t, t ∈ toks ↔ (t ∈ c.rows ∧ t ≠ "") := by
  refine ⟨pyDedup (c.rows.filter (fun s => !s.isEmpty)), ?_,
    pyDedup_eq_dedupFirst _, ?_, fun t => mem_pyDedup_filter c.rows t⟩
  · simp only [_collect_device_tokens]
    rw [h]
  · rw [pyDedup_eq_dedupFirst]
    exact nodup_dedupFirst _

/-- Witness for C9 on a concrete registry with an empty token and a
duplicate. -/
theorem C9_witness :
    ∃ toks,
      _collect_device_tokens
          (some { rows := ["t1", "", "t2", "t1"], readFail := none, writeFail := none })
        = .ok toks
      ∧ toks = dedupFirst
          ((["t1", "", "t2", "t1"] : List String).filter (fun s => !s.isEmpty))
      ∧ toks.Nodup
      ∧ ∀ t, t ∈ toks ↔ (t ∈ (["t1", "", "t2", "t1"] : List String) ∧ t ≠ "") :=
  C9_collect_first_wins_dedup
    { rows := ["t1", "", "t2", "t1"], readFail := none, writeFail := none } rfl

/-- C10: the title mapping is total over arbitrary strings and its
`canceled` branch is a catch-all default: every argument other than
`new`, `rescheduled` and `updated` — including `canceled` itself and any
unknown kind — maps to the canceled title. -/
theorem C10_title_catch_all (s : String)
    (h1 : s ≠ "new") (h2 : s ≠ "rescheduled") (h3 : s ≠ "updated") :
    _notification_title s = "Мероприятие отменено" := by
  unfold _notification_title
  rw [if_neg h1, if_neg h2, if_neg h3]

/-- Witness for C10 at an unknown future kind. -/
theorem C10_witness : _notification_title "some-future-kind" = "Мероприятие отменено" :=
  C10_title_catch_all "some-future-kind" (by decide) (by decide) (by decide)

/-- C5: in a notify fan-out pass over a non-failing session, a collected
token whose send raises a marker-matching (invalid/unregistered) error is
absent from the device registry by the end of the call, while a collected
token whose send raises a non-matching error remains registered; and the
batch prune on an empty invalid-token list returns 0 for any session
without touching it. -/
theorem C5_prune_invalid_keep_transient (env : FcmEnv) (c : DbConn)
    (toks : List String) (t m : String)
    (hr : c.readFail = none) (hw : c.writeFail = none)
    (hcol : _collect_device_tokens (some c) = .ok toks) (ht : t ∈ toks)
    (hsend : env.tokenSend t = .raise m) :
    ((_is_invalid_token_error m = true →
        ∃ tr c', _send_event true env (some c) = .ok tr
          ∧ tr.dbAfter = some c' ∧ t ∉ c'.rows)
     ∧ (_is_invalid_token_error m = false →
        ∃ tr c', _send_event true env (some c) = .ok tr
          ∧ tr.dbAfter = some c' ∧ t ∈ c'.rows))
    ∧ ∀ db, _prune_invalid_tokens db [] = .ok (0, db) := by
  have htoks : toks = pyDedup (c.rows.filter (fun s => !s.isEmpty)) := by
    simp only [_collect_device_tokens] at hcol
    rw [hr] at hcol
    simp only [Except.ok.injEq] at hcol
    exact hcol.symm
  subst htoks
  obtain ⟨htmem, htne⟩ := (mem_pyDedup_filter c.rows t).mp ht
  obtain ⟨tr, c', hrun, hdb, hmem⟩ := send_event_run env c hr hw
  refine ⟨⟨?_, ?_⟩, ?_⟩
  · intro hmark
    refine ⟨tr, c', hrun, hdb, ?_⟩
    intro habs
    have hinv : t ∈ (fanoutLoop env (pyDedup (c.rows.filter (fun s => !s.isEmpty)))).2 :=
      (mem_fanout_invalid env _ t).mpr ⟨ht, m, hsend, hmark⟩
    exact ((hmem t).mp habs).2 ⟨hinv, htne⟩
  · intro hmark
    refine ⟨tr, c', hrun, hdb, ?_⟩
    refine (hmem t).mpr ⟨htmem, ?_⟩
    rintro ⟨hinv, _⟩
    obtain ⟨_, m', hraise, hmark'⟩ := (mem_fanout_invalid env _ t).mp hinv
    rw [hsend] at hraise
    injection hraise with hm
    rw [← hm] at hmark'
    rw [hmark'] at hmark
    cases hmark
  · intro db
    cases db <;> rfl

/-- Witness for C5: the spec's scenario A — registry `[t1, t2]`, `t1`
delivers, `t2` raises `registration-token-not-registered` — instantiated
at the invalid token `t2`, plus the empty-batch prune fact. -/
theorem C5_witness :
    ((_is_invalid_token_error "registration-token-not-registered" = true →
        ∃ tr c', _send_event true envScenarioA
            (some { rows := ["t1", "t2"], readFail := none, writeFail := none }) = .ok tr
          ∧ tr.dbAfter = some c' ∧ "t2" ∉ c'.rows)
     ∧ (_is_invalid_token_error "registration-token-not-registered" = false →
        ∃ tr c', _send_event true envScenarioA
            (some { rows := ["t1", "t2"], readFail := none, writeFail := none }) = .ok tr
          ∧ tr.dbAfter = some c' ∧ "t2" ∈ c'.rows))
    ∧ ∀ db, _prune_invalid_tokens db [] = .ok (0, db) :=
  C5_prune_invalid_keep_transient envScenarioA
    { rows := ["t1", "t2"], readFail := none, writeFail := none }
    ["t1", "t2"] "t2" "registration-token-not-registered"
    rfl rfl rfl (by decide) rfl

/-- C6 counterexample: with the provider enabled and a session whose read
raises, `_send_event` propagates the database exception to its caller —
refuting the claim that no exception ever escapes the notify entry
points. -/
theorem C6_counterexample :
    _send_event true envAllOk
        (some { rows := ["t1"], readFail := some "db connection lost", writeFail := none })
      = .error "db connection lost" := rfl

/-- C6 amended: provided the database session's read and write paths do
not raise (in particular whenever no session is passed), `_send_event`
returns normally for every enabled-flag value and every behaviour of the
messaging sends — all send exceptions are caught, classified and
logged. -/
theorem C6_no_escape_without_db_failure (e : Bool) (env : FcmEnv) (db : Option DbConn)
    (h : ∀ c, db = some c → c.readFail = none ∧ c.writeFail = none) :
    ∃ tr, _send_event e env db = .ok tr := by
  cases e
  · exact ⟨{ delivered := 0, topicAttempts := 0, topicSent := false, dbAfter := db }, rfl⟩
  · cases db with
    | none =>
        exact ⟨{ delivered := 0, topicAttempts := 1,
                 topicSent := _send_to_topic env, dbAfter := none }, rfl⟩
    | some c =>
        obtain ⟨h1, h2⟩ := h c rfl
        obtain ⟨tr, _, hrun, _⟩ := send_event_run env c h1 h2
        exact ⟨tr, hrun⟩

/-- Witness for C6 amended at a concrete healthy session. -/
theorem C6_witness :
    ∃ tr, _send_event true envAllOk
        (some { rows := ["t1"], readFail := none, writeFail := none }) = .ok tr :=
  C6_no_escape_without_db_failure true envAllOk
    (some { rows := ["t1"], readFail := none, writeFail := none })
    (fun c hc => by cases hc; exact ⟨rfl, rfl⟩)

/-! Helper lemmas about the fan-out loop of `send_test_notification`. -/

theorem testLoop_delivered (env : FcmEnv) (toks : List String) :
    (testLoop env toks).1 = toks.countP (fun t => decide (env.tokenSend t = .ok)) := by
  induction toks with
  | nil => simp [testLoop]
  | cons u rest ih =>
      unfold testLoop
      rcases hu : env.tokenSend u with _ | m
      · simp only [List.countP_cons, hu]
        simp [ih]
      · simp only [List.countP_cons, hu]
        by_cases hmark : _is_invalid_token_error m = true
      
        · rw [if_pos hmark]
          simp [ih]
        · rw [if_neg hmark]
          simp [ih]

theorem testLoop_invalid (env : FcmEnv) (toks : List String) :
    (testLoop env toks).2.1 = (fanoutLoop env toks).2 := by
  induction toks with
  | nil => rfl
  | cons u rest ih =>
      unfold testLoop fanoutLoop
      rcases hu : env.tokenSend u with _ | m
      · simpa using ih
      · simp only []
        by_cases hmark : _is_invalid_token_error m = true
        · rw [if_pos hmark, if_pos hmark]
          simpa using ih
        · rw [if_neg hmark, if_neg hmark]
          simpa using ih

theorem testLoop_errors (env : FcmEnv) (toks : List String) :
    ∀ e ∈ (testLoop env toks).2.2, ∃ t, t ∈ toks ∧ ∃ m,
      env.tokenSend t = .raise m ∧
      (e = "token:" ++ t.take 12 ++ "... invalid_or_unregistered (removed)"
       ∨ e = "token:" ++ t.take 12 ++ "... " ++ m) := by
  induction toks with
  | nil => simp [testLoop]
  | cons u rest ih =>
      intro e he
      unfold testLoop at he
      rcases hu : env.tokenSend u with _ | m <;> rw [hu] at he
      · simp only [] at he
        obtain ⟨t, htm, hrest⟩ := ih e he
        exact ⟨t, List.mem_cons_of_mem u htm, hrest⟩
      · simp only [] at he
        by_cases hmark : _is_invalid_token_error m = true
        · rw [if_pos hmark] at he
          simp only [List.mem_cons] at he
          rcases he with heq | he'
          · exact ⟨u, List.mem_cons_self u rest, m, hu, Or.inl heq⟩
          · obtain ⟨t, htm, hrest⟩ := ih e he'
            exact ⟨t, List.mem_cons_of_mem u htm, hrest⟩
        · rw [if_neg hmark] at he
          simp only [List.mem_cons] at he
          rcases he with heq | he'
          · exact ⟨u, List.mem_cons_self u rest, m, hu, Or.inr heq⟩
          · obtain ⟨t, htm, hrest⟩ := ih e he'
            exact ⟨t, List.mem_cons_of_mem u htm, hrest⟩

/-- C7 amended: over a session whose read/write paths do not raise,
`send_test_notification` returns a result record with `ok` equal to
`delivered > 0 OR topic_sent`, `enabled` true, the configured topic name,
`tokens_total` the number of targeted tokens, `tokens_delivered` the
number of successful per-token sends, `tokens_pruned` the number of
registry rows removed, `topic_sent` true exactly when the fallback fired
(zero delivered and the topic send succeeded), and an error list capped
to its first 5 entries in which every token-derived entry carries the
first 12 characters of the token — a proper fragment only when the token
is longer than 12 characters. -/
theorem C7_sendtest_result_contract (topicName : String) (env : FcmEnv) (c : DbConn)
    (hr : c.readFail = none) (hw : c.writeFail = none) :
    ∃ res c', send_test_notification true topicName env (some c) = .ok (res, some c')
      ∧ res.enabled = true
      ∧ res.topic = topicName
      ∧ res.ok = (decide (res.tokens_delivered > 0) || res.topic_sent)
      ∧ res.tokens_total = (pyDedup (c.rows.filter (fun s => !s.isEmpty))).length
      ∧ res.tokens_delivered = (pyDedup (c.rows.filter (fun s => !s.isEmpty))).countP
          (fun t => decide (env.tokenSend t = SendOutcome.ok))
      ∧ res.tokens_pruned + c'.rows.length = c.rows.length
      ∧ (res.topic_sent = true ↔ (res.tokens_delivered = 0 ∧ env.topicSend = SendOutcome.ok))
      ∧ res.errors.length ≤ 5
      ∧ (∀ e ∈ res.errors,
          (∃ t, t ∈ pyDedup (c.rows.filter (fun s => !s.isEmpty)) ∧ ∃ m,
            env.tokenSend t = SendOutcome.raise m ∧
            (e = "token:" ++ t.take 12 ++ "... invalid_or_unregistered (removed)"
             ∨ e = "token:" ++ t.take 12 ++ "... " ++ m))
          ∨ (∃ m, env.topicSend = SendOutcome.raise m
               ∧ e = "topic:" ++ topicName ++ " " ++ m)) := by
  have hcol : _collect_device_tokens (some c)
      = .ok (pyDedup (c.rows.filter (fun s => !s.isEmpty))) := by
    simp only [_collect_device_tokens]
    rw [hr]
  obtain ⟨n, c', heq, hmem, hlen⟩ :=
    prune_registry c (testLoop env (pyDedup (c.rows.filter (fun s => !s.isEmpty)))).2.1 hr hw
  by_cases hd : (testLoop env (pyDedup (c.rows.filter (fun s => !s.isEmpty)))).1 = 0
  · rcases htop : env.topicSend with _ | m
    · refine ⟨{ ok := decide ((testLoop env (pyDedup (c.rows.filter (fun s => !s.isEmpty)))).1 > 0) || true, enabled := true, topic := topicName, tokens_total := (pyDedup (c.rows.filter (fun s => !s.isEmpty))).length, tokens_delivered := (testLoop env (pyDedup (c.rows.filter (fun s => !s.isEmpty)))).1, tokens_pruned := n, topic_sent := true, errors := (testLoop env (pyDedup (c.rows.filter (fun s => !s.isEmpty)))).2.2.take 5 }, c', ?_, rfl, rfl, rfl, rfl, testLoop_delivered env _, hlen,
        ⟨fun _ => ⟨hd, rfl⟩, fun _ => rfl⟩, ?_, ?_⟩
      · simp only [send_test_notification]
        rw [hcol]
        simp only []
        rw [heq]
        simp only []
        rw [if_pos hd, htop]
        simp
      · rw [List.length_take]
        exact min_le_left _ _
      · intro e he
        have he' := List.mem_of_mem_take he
        obtain ⟨t, htm, m', hraise, hshape⟩ := testLoop_errors env _ e he'
        exact Or.inl ⟨t, htm, m', hraise, hshape⟩
    · refine ⟨{ ok := decide ((testLoop env (pyDedup (c.rows.filter (fun s => !s.isEmpty)))).1 > 0) || false, enabled := true, topic := topicName, tokens_total := (pyDedup (c.rows.filter (fun s => !s.isEmpty))).length, tokens_delivered := (testLoop env (pyDedup (c.rows.filter (fun s => !s.isEmpty)))).1, tokens_pruned := n, topic_sent := false, errors := ((testLoop env (pyDedup (c.rows.filter (fun s => !s.isEmpty)))).2.2 ++ ["topic:" ++ topicName ++ " " ++ m]).take 5 }, c', ?_, rfl, rfl, rfl, rfl, testLoop_delivered env _, hlen,
        by simp [htop], ?_, ?_⟩
      · simp only [send_test_notification]
        rw [hcol]
        simp only []
        rw [heq]
        simp only []
        rw [if_pos hd, htop]
        simp
      · rw [List.length_take]
        exact min_le_left _ _
      · intro e he
        have he' := List.mem_of_mem_take he
        rcases List.mem_append.mp he' with hl | hrr
        · obtain ⟨t, htm, m', hraise, hshape⟩ := testLoop_errors env _ e hl
          exact Or.inl ⟨t, htm, m', hraise, hshape⟩
        · rw [List.mem_singleton] at hrr
          exact Or.inr ⟨m, rfl, hrr⟩
  · refine ⟨{ ok := decide ((testLoop env (pyDedup (c.rows.filter (fun s => !s.isEmpty)))).1 > 0) || false, enabled := true, topic := topicName, tokens_total := (pyDedup (c.rows.filter (fun s => !s.isEmpty))).length, tokens_delivered := (testLoop env (pyDedup (c.rows.filter (fun s => !s.isEmpty)))).1, tokens_pruned := n, topic_sent := false, errors := (testLoop env (pyDedup (c.rows.filter (fun s => !s.isEmpty)))).2.2.take 5 }, c', ?_, rfl, rfl, rfl, rfl, testLoop_delivered env _, hlen,
      by simp [hd], ?_, ?_⟩
    · simp only [send_test_notification]
      rw [hcol]
      simp only []
      rw [heq]
      simp only []
      rw [if_neg hd]
      simp
    · rw [List.length_take]
      exact min_le_left _ _
    · intro e he
      have he' := List.mem_of_mem_take he
      obtain ⟨t, htm, m', hraise, hshape⟩ := testLoop_errors env _ e he'
      exact Or.inl ⟨t, htm, m', hraise, hshape⟩

/-- C7 counterexample: a registered token of 9 characters fails
transiently, and the resulting error entry contains the entire token —
`token[:12]` is only a truncation for tokens longer than 12 characters,
so the claim's "never a full token" is false. -/
theorem C7_counterexample :
    send_test_notification true "all" envTransient
        (some { rows := ["shorttok1"], readFail := none, writeFail := none })
      = .ok ({ ok := true, enabled := true, topic := "all", tokens_total := 1
             , tokens_delivered := 0, tokens_pruned := 0, topic_sent := true
             , errors := ["token:shorttok1... network timeout"] },
             some { rows := ["shorttok1"], readFail := none, writeFail := none })
    ∧ "shorttok1".data <:+: "token:shorttok1... network timeout".data :=
  ⟨rfl, by decide⟩

/-- Witness for C7 amended at a concrete healthy session and environment. -/
theorem C7_witness :
    ∃ res c', send_test_notification true "all" envTransient
        (some { rows := ["shorttok1"], readFail := none, writeFail := none })
          = .ok (res, some c')
      ∧ res.enabled = true
      ∧ res.topic = "all"
      ∧ res.ok = (decide (res.tokens_delivered > 0) || res.topic_sent)
      ∧ res.tokens_total = (pyDedup ((["shorttok1"] : List String).filter
          (fun s => !s.isEmpty))).length
      ∧ res.tokens_delivered = (pyDedup ((["shorttok1"] : List String).filter
          (fun s => !s.isEmpty))).countP
            (fun t => decide (envTransient.tokenSend t = SendOutcome.ok))
      ∧ res.tokens_pruned + c'.rows.length
          = ({ rows := ["shorttok1"], readFail := none, writeFail := none } : DbConn).rows.length
      ∧ (res.topic_sent = true
          ↔ (res.tokens_delivered = 0 ∧ envTransient.topicSend = SendOutcome.ok))
      ∧ res.errors.length ≤ 5
      ∧ (∀ e ∈ res.errors,
          (∃ t, t ∈ pyDedup ((["shorttok1"] : List String).filter (fun s => !s.isEmpty)) ∧ ∃ m,
            envTransient.tokenSend t = SendOutcome.raise m ∧
            (e = "token:" ++ t.take 12 ++ "... invalid_or_unregistered (removed)"
             ∨ e = "token:" ++ t.take 12 ++ "... " ++ m))
          ∨ (∃ m, envTransient.topicSend = SendOutcome.raise m
               ∧ e = "topic:" ++ "all" ++ " " ++ m)) :=
  C7_sendtest_result_contract "all" envTransient
    { rows := ["shorttok1"], readFail := none, writeFail := none } rfl rfl
